import Mathlib

/-!
Verification of the request-resolution and response-delivery pipeline of a
small Node.js static file server (`src/unnamed/part_000`, with earlier
iterations in `src/src/main.js`).

The JavaScript source is shallowly embedded: every pure computation of the
pipeline (ETag construction, MIME lookup, compression negotiation, path
normalization and the containment check, the directory-listing chunk
sequence, the basic-auth gate, and the per-request dispatcher) is translated
into an executable Lean definition.  External collaborators are passed in as
explicit oracles: the filesystem is a `Fs` record of pure functions
(`stat`, `readDir`), the upstream proxy network is a function
`ProxyReq → Option UpstreamResp`, and the platform URL library (WHATWG `URL`
plus `decodeURIComponent`) is represented by its outcome — an
`Option String` decoded path and an `Option UrlParts` proxy-target parse,
`none` meaning the library threw.  A finished HTTP response is a `Response`
value (status, headers in write order, body source); `HOutcome.noResponse`
records the case where the handler throws before writing anything.
-/

namespace Serve

/-! ## Generic string helpers (kernel-friendly, char-list based) -/

/-- Does the list `pre` occur at the head of `l`?  (Used to model
`String.prototype.startsWith` and substring search.) -/
def startsWithList : List Char → List Char → Bool
  | [], _ => true
  | _ :: _, [] => false
  | a :: as, b :: bs => a == b && startsWithList as bs

/-- Does `sub` occur contiguously anywhere inside `l`?  Models the JS
`String.prototype.includes` substring test. -/
def substrOfList (sub : List Char) : List Char → Bool
  | [] => startsWithList sub []
  | b :: bs => startsWithList sub (b :: bs) || substrOfList sub bs

/-- JS `s.includes(sub)`. -/
def includesStr (s sub : String) : Bool := substrOfList sub.data s.data

/-- JS `s.startsWith(pre)`. -/
def startsWithStr (s pre : String) : Bool := startsWithList pre.data s.data

/-- JS `s.endsWith(suf)`. -/
def endsWithStr (s suf : String) : Bool :=
  startsWithList suf.data.reverse s.data.reverse

/-- Splitting accumulator: `splitOnCharAux c l acc` splits `l` at every
occurrence of `c`, with `acc` the (reversed) pending segment. -/
def splitOnCharAux (c : Char) : List Char → List Char → List (List Char)
  | [], acc => [acc.reverse]
  | b :: bs, acc =>
    if b == c then acc.reverse :: splitOnCharAux c bs []
    else splitOnCharAux c bs (b :: acc)

/-- JS `s.split(c)` for a single-character separator: every occurrence
separates, empty segments are kept, the empty string yields `[""]`. -/
def jsSplit (s : String) (c : Char) : List String :=
  (splitOnCharAux c s.data []).map String.mk

/-- Case-insensitive lowering, `String.prototype.toLowerCase` on ASCII. -/
def toLowerStr (s : String) : String := String.mk (s.data.map Char.toLower)

/-! ## Base-36 rendering (JS `Number.prototype.toString(36)`) -/

/-- The base-36 digit characters used by JS `toString(36)`:
`0`-`9` then lowercase `a`-`z`. -/
def b36digit (d : Nat) : Char :=
  if d < 10 then Char.ofNat (48 + d) else Char.ofNat (87 + d)

/-- Numeric value of a base-36 digit character. -/
def b36val (c : Char) : Nat :=
  if c.toNat ≤ 57 then c.toNat - 48 else c.toNat - 87

/-- Fueled most-significant-first base-36 digit expansion of a natural
number; the fuel only bounds recursion depth and `n + 1` is always enough. -/
def natToB36Aux : Nat → Nat → List Char
  | 0, _ => []
  | fuel + 1, n =>
    if n < 36 then [b36digit n]
    else natToB36Aux fuel (n / 36) ++ [b36digit (n % 36)]

/-- `n.toString(36)` for a nonnegative JS number holding `n`. -/
def natToB36 (n : Nat) : List Char := natToB36Aux (n + 1) n

/-- `t.toString(36)` for an integral JS number: negative values are the
minus sign followed by the digits of the absolute value. -/
def intToB36 (t : Int) : List Char :=
  if t < 0 then '-' :: natToB36 t.natAbs else natToB36 t.toNat

/-- The weak entity tag of `serveFile`
(line `const etag = `W/"${stats.size.toString(36)}-${stats.mtime.getTime().toString(36)}"``):
the characters `W/"`, the base-36 size, `-`, the base-36 modification time
in milliseconds, and a closing quote. -/
def etagOf (size : Nat) (mtimeMs : Int) : String :=
  String.mk ('W' :: '/' :: '"' :: (natToB36 size ++ '-' :: (intToB36 mtimeMs ++ ['"'])))

/-- Read a base-36 digit string back into a number (proof tool for the
injectivity of the tag). -/
def b36parse (l : List Char) : Nat := l.foldl (fun a c => a * 36 + b36val c) 0

/-! ## Data model

`Conf` is the subset of the startup configuration object `conf` read by the
request pipeline.  `Stats` is the file descriptor record returned by
`fs.stat` (`size`, `mtime.getTime()` in milliseconds, `isDirectory()`,
`isFile()`).  `Dirent` is one directory entry yielded by `opendir`. -/

structure Conf where
  root : String
  cors : Bool
  gzip : Bool
  cache : Option Int
  showDir : Bool
  autoIndex : Bool
  proxy : Option String
  username : Option String
  password : Option String
deriving DecidableEq

structure Stats where
  size : Nat
  mtimeMs : Int
  isDirectory : Bool
  isFile : Bool
deriving DecidableEq

structure Dirent where
  name : String
  isDirectory : Bool
deriving DecidableEq

/-- The filesystem oracle.  `stat p = none` models `stat` throwing (no such
file); `readDir p = (entries, failed)` models the `opendir` iteration
yielding `entries` and then either finishing normally (`failed = false`) or
raising an error (`failed = true`, which also covers `opendir` itself
throwing with `entries = []`). -/
structure Fs where
  stat : String → Option Stats
  readDir : String → List Dirent × Bool

/-- An incoming request as the handler sees it: method, raw URL, the header
mapping (Node lowercases incoming header names), and the body chunks. -/
structure Request where
  method : String
  url : String
  headers : List (String × String)
  body : List String
deriving DecidableEq

/-- `req.headers[k]`: first binding of `k`, `undefined` when absent. -/
def getHeader (hs : List (String × String)) (k : String) : Option String :=
  (hs.find? (fun h => h.1 == k)).map (·.2)

/-- The fields of a WHATWG `URL` value that `proxyRequest` reads. -/
structure UrlParts where
  protocol : String
  hostname : String
  port : String
  pathname : String
  search : String
deriving DecidableEq

/-- The options object handed to `http.request`/`https.request` plus the
piped request body: everything the upstream server receives. -/
structure ProxyReq where
  hostname : String
  port : String
  path : String
  method : String
  headers : List (String × String)
  body : List String
deriving DecidableEq

/-- The upstream's answer: status code, headers, body chunks. -/
structure UpstreamResp where
  status : Nat
  headers : List (String × String)
  body : List String
deriving DecidableEq

/-- The compression transform selected for a response body. -/
inductive Encoding where
  | gzip
  | deflate
deriving DecidableEq

/-- What flows into `res` after the headers: nothing (`res.end()`), a
literal string (`res.end(s)`), a file read stream optionally piped through
a compression transform, the chunk sequence of a directory listing, or a
relayed upstream body. -/
inductive BodyKind where
  | empty
  | literal (s : String)
  | fileStream (path : String) (transform : Option Encoding)
  | listing (chunks : List String)
  | proxied (chunks : List String)
deriving DecidableEq

/-- A completed response: status code passed to `writeHead`, the headers in
the order they are set, and the body source. -/
structure Response where
  status : Nat
  headers : List (String × String)
  body : BodyKind
deriving DecidableEq

/-- Outcome of one invocation of the request handler.  `noResponse` records
an exception escaping the handler before anything is written (the promise
rejects; no status line ever reaches the client). -/
inductive HOutcome where
  | noResponse
  | resp (r : Response)
deriving DecidableEq

/-- Status code written for this request, if any. -/
def HOutcome.statusOf : HOutcome → Option Nat
  | .noResponse => none
  | .resp r => some r.status

/-- Body source written for this request, if any. -/
def HOutcome.bodyOf : HOutcome → Option BodyKind
  | .noResponse => none
  | .resp r => some r.body

/-- Chunk list of a directory-listing response (empty for other bodies). -/
def listingChunksOf : Response → List String
  | ⟨_, _, .listing l⟩ => l
  | _ => []

/-! ## MIME table and compression allow-list (the `MIME` and `COMPRESSIBLE`
constants of `src/unnamed/part_000`) -/

def MIME : List (String × String) :=
  [(".html", "text/html"), (".htm", "text/html"), (".css", "text/css"),
   (".js", "text/javascript"), (".mjs", "text/javascript"), (".jsx", "text/javascript"),
   (".json", "application/json"), (".jsonld", "application/ld+json"), (".map", "application/json"),
   (".txt", "text/plain"), (".csv", "text/csv"), (".xml", "text/xml"),
   (".md", "text/markdown"), (".webmanifest", "application/manifest+json"),
   (".png", "image/png"), (".jpg", "image/jpeg"), (".jpeg", "image/jpeg"),
   (".gif", "image/gif"), (".svg", "image/svg+xml"), (".ico", "image/x-icon"),
   (".webp", "image/webp"), (".avif", "image/avif"),
   (".woff", "font/woff"), (".woff2", "font/woff2"), (".ttf", "font/ttf"),
   (".otf", "font/otf"), (".eot", "application/vnd.ms-fontobject"),
   (".wasm", "application/wasm"), (".pdf", "application/pdf"),
   (".zip", "application/zip"), (".mp4", "video/mp4"), (".webm", "video/webm")]

def COMPRESSIBLE : List String :=
  ["text/html", "text/css", "text/javascript", "application/json",
   "application/ld+json", "text/plain", "text/csv", "text/xml",
   "text/markdown", "image/svg+xml", "application/manifest+json"]

/-- `MAX_COMPRESS_SIZE = 5 * 1024 * 1024`: payloads at least this large
stream uncompressed. -/
def MAX_COMPRESS_SIZE : Nat := 5 * 1024 * 1024

/-! ## POSIX path functions (`node:path`'s `extname`, `normalize`, `join`) -/

/-- `path.extname`: the final-dot suffix of the final path segment, empty
when the segment has no dot or only a leading dot. -/
def extnameStr (p : String) : String :=
  let base := ((jsSplit p '/').getLast?).getD ""
  let rev := base.data.reverse
  let afterDot := rev.takeWhile (fun c => c ≠ '.')
  if afterDot.length = base.data.length then ""
  else if afterDot.length + 1 = base.data.length then ""
  else String.mk ('.' :: afterDot.reverse)

/-- Resolve one `normalize` segment: `..` pops the last kept segment (kept
segments are accumulated in reverse), is dropped at the root of an absolute
path, and accumulates at the head of a relative path. -/
def normSegStep (isAbs : Bool) (acc : List String) (s : String) : List String :=
  if s = ".." then
    match acc with
    | [] => if isAbs then [] else [".."]
    | a :: rest => if a = ".." then s :: acc else rest
  else s :: acc

/-- `path.posix.normalize`: collapse `.` and `..` segments and repeated
separators, preserving a trailing separator. -/
def normalizeStr (p : String) : String :=
  if p = "" then "."
  else
    let isAbs := startsWithStr p "/"
    let trailing := endsWithStr p "/"
    let segs := (jsSplit p '/').filter (fun s => s ≠ "" && s ≠ ".")
    let out := (segs.foldl (normSegStep isAbs) []).reverse
    let body := String.intercalate "/" out
    if isAbs then
      if body = "" then "/" else "/" ++ body ++ (if trailing then "/" else "")
    else
      if body = "" then (if trailing then "./" else ".") else
        body ++ (if trailing then "/" else "")

/-- `path.posix.join(a, b)`: drop empty arguments, concatenate with `/`,
normalize; the empty join is `"."`. -/
def joinP (a b : String) : String :=
  if a = "" then (if b = "" then "." else normalizeStr b)
  else if b = "" then normalizeStr a
  else normalizeStr (a ++ "/" ++ b)

/-- Is `p` the directory `root` itself or a path strictly inside it?  This
is genuine directory containment, used to state the traversal claims; the
code's own check is the weaker `startsWithStr`. -/
def withinDir (p root : String) : Bool :=
  p == root || startsWithStr p (root ++ "/")

/-! ## `serveFile` -/

/-- Content type by extension: `MIME[extname(filePath).toLowerCase()] ||
'application/octet-stream'`. -/
def contentTypeOf (filePath : String) : String :=
  ((MIME.lookup (toLowerStr (extnameStr filePath)))).getD "application/octet-stream"

/-- The compression decision of `serveFile`: the `shouldCompress`
conjunction (global flag, allow-listed type, `size > 1024`,
`size < MAX_COMPRESS_SIZE`) and then the `Accept-Encoding` substring probes,
gzip before deflate. -/
def pickTransform (conf : Conf) (contentType : String) (size : Nat)
    (acceptEncoding : String) : Option Encoding :=
  if conf.gzip = true ∧ COMPRESSIBLE.contains contentType = true ∧
      1024 < size ∧ size < MAX_COMPRESS_SIZE then
    if includesStr acceptEncoding "gzip" then some .gzip
    else if includesStr acceptEncoding "deflate" then some .deflate
    else none
  else none

/-- `serveFile(req, res, filePath, stats)`: cache-control selection, entity
tag, conditional 304 short-circuit, header assembly (with the CORS pair when
enabled), compression negotiation, and the final 200 with either an exact
`Content-Length` or a transform-piped stream. -/
def serveFile (conf : Conf) (req : Request) (filePath : String) (stats : Stats) : Response :=
  let contentType := contentTypeOf filePath
  let maxAge : Int :=
    match conf.cache with
    | some c => c
    | none => if COMPRESSIBLE.contains contentType then 0 else 3600
  let etag := etagOf stats.size stats.mtimeMs
  if getHeader req.headers "if-none-match" = some etag then
    ⟨304, [], .empty⟩
  else
    let baseHeaders := [("Content-Type", contentType), ("ETag", etag),
      ("Cache-Control", "public, max-age=" ++ toString maxAge),
      ("Vary", "Accept-Encoding")]
    let headers :=
      if conf.cors then
        baseHeaders ++ [("Access-Control-Allow-Origin", "*"),
          ("Access-Control-Allow-Headers",
            "Origin, X-Requested-With, Content-Type, Accept, Range")]
      else baseHeaders
    let ae := (getHeader req.headers "accept-encoding").getD ""
    let transform := pickTransform conf contentType stats.size ae
    let headers :=
      match transform with
      | some .gzip => headers ++ [("Content-Encoding", "gzip")]
      | some .deflate => headers ++ [("Content-Encoding", "deflate")]
      | none => headers ++ [("Content-Length", toString stats.size)]
    ⟨200, headers, .fileStream filePath transform⟩

/-! ## `serveDirectory` -/

/-- One `<li>` line of the listing, exactly as interpolated by
`res.write(`<li><a href="${href}">${name}${dirent.isDirectory() ? '/' : ''}</a></li>`)`
— note the entry name is written into the markup verbatim. -/
def listingEntryChunk (urlPrefix : String) (d : Dirent) : String :=
  "<li><a href=\"" ++ (urlPrefix ++ d.name) ++ "\">" ++ d.name ++
    (if d.isDirectory then "/" else "") ++ "</a></li>"

/-- `serveDirectory(res, url, dirPath)`: 403 when listings are disabled,
otherwise a 200 HTML stream of header chunk, optional parent link, one chunk
per entry, and the closing chunk — `'</ul>'` on success,
`'</ul><p>Access Error</p>'` when enumeration raised. -/
def serveDirectory (conf : Conf) (fs : Fs) (url : String) (dirPath : String) : Response :=
  if !conf.showDir then ⟨403, [], .literal "Forbidden"⟩
  else
    let headChunk := "<!DOCTYPE html><meta charset=\"utf-8\"><h1>📂 " ++ url ++ "</h1><ul>"
    let parentChunks := if url ≠ "/" then ["<li><a href=\"..\">⬆️ Parent</a></li>"] else []
    let urlPrefix := if endsWithStr url "/" then url else url ++ "/"
    let result := fs.readDir dirPath
    let entryChunks := result.1.map (listingEntryChunk urlPrefix)
    let endChunk := if result.2 then "</ul><p>Access Error</p>" else "</ul>"
    ⟨200, [("Content-Type", "text/html; charset=utf-8")],
      .listing (headChunk :: (parentChunks ++ entryChunks ++ [endChunk]))⟩

/-! ## `proxyRequest` -/

/-- JS truthiness of an optional string option (`null` and `''` are falsy). -/
def truthy : Option String → Bool
  | none => false
  | some s => s ≠ ""

/-- `proxyRequest(req, res)`: 404 when no upstream is configured; 400 when
`new URL(req.url, conf.proxy)` throws (its outcome is the `proxyParse`
oracle); otherwise the request is forwarded — method, headers and body
verbatim — and the upstream's status, headers and body are relayed, or 502
when the upstream connection errors (`upstream _ = none`). -/
def proxyRequest (conf : Conf) (proxyParse : Option UrlParts)
    (upstream : ProxyReq → Option UpstreamResp) (req : Request) : Response :=
  if !truthy conf.proxy then
    ⟨404, [("Content-Type", "text/plain")], .literal "404 Not Found"⟩
  else
    match proxyParse with
    | none => ⟨400, [], .literal "Bad Request"⟩
    | some u =>
      let preq : ProxyReq :=
        ⟨u.hostname, u.port, u.pathname ++ u.search, req.method, req.headers, req.body⟩
      match upstream preq with
      | none => ⟨502, [], .literal "Bad Gateway"⟩
      | some pres => ⟨pres.status, pres.headers, .proxied pres.body⟩

/-! ## Base64 and UTF-8 decoding (`Buffer.from(credentials, 'base64').toString()`)

Node's base64 decoder is lenient: characters outside the alphabet
(including `=` padding and whitespace) are skipped, the URL-safe variants
`-` and `_` are accepted, and a trailing group of fewer than four symbols
contributes only its complete bytes. -/

/-- Value of one base64 symbol, `none` for characters Node skips. -/
def b64symVal (c : Char) : Option Nat :=
  if 'A' ≤ c ∧ c ≤ 'Z' then some (c.toNat - 65)
  else if 'a' ≤ c ∧ c ≤ 'z' then some (c.toNat - 71)
  else if '0' ≤ c ∧ c ≤ '9' then some (c.toNat + 4)
  else if c = '+' ∨ c = '-' then some 62
  else if c = '/' ∨ c = '_' then some 63
  else none

/-- Reassemble 6-bit symbol values into bytes, four symbols to three bytes,
with Node's handling of a short trailing group. -/
def b64bytes : List Nat → List Nat
  | a :: b :: c :: d :: rest =>
    (a * 4 + b / 16) :: ((b % 16) * 16 + c / 4) :: ((c % 4) * 64 + d) :: b64bytes rest
  | [a, b, c] => [a * 4 + b / 16, (b % 16) * 16 + c / 4]
  | [a, b] => [a * 4 + b / 16]
  | _ => []

/-- Is `c` a UTF-8 continuation byte (0x80–0xBF)? -/
def utf8Cont (c : Nat) : Bool := decide (128 ≤ c) && decide (c ≤ 191)

/-- Lower bound of the valid range for the first continuation byte after
lead `b`, per the WHATWG encoding standard: lead 0xE0 requires 0xA0–0xBF
(else the encoding would be overlong) and lead 0xF0 requires 0x90–0xBF. -/
def utf8C1lo (b : Nat) : Nat := if b = 224 then 160 else if b = 240 then 144 else 128

/-- Upper bound of the valid range for the first continuation byte after
lead `b`: lead 0xED caps at 0x9F (excluding the surrogate range
U+D800–U+DFFF) and lead 0xF4 caps at 0x8F (staying below U+110000). -/
def utf8C1hi (b : Nat) : Nat := if b = 237 then 159 else if b = 244 then 143 else 191

/-- UTF-8 byte decoding with U+FFFD replacement for malformed input, as
`buffer.toString('utf8')` produces: overlong encodings, surrogate code
points, out-of-range leads (0xC0/0xC1, 0xF5–0xFF) and stray continuation
bytes are all rejected, and on a failed byte one replacement character is
emitted for the maximal valid subpart and decoding resumes at that byte.
Fueled so the definition is structural (kernel-reducible); each step
consumes at least one byte, so fuel equal to the byte count is enough. -/
def decodeUtf8Aux : Nat → List Nat → List Char
  | 0, _ => []
  | _, [] => []
  | fuel + 1, b :: rest =>
    if b < 128 then Char.ofNat b :: decodeUtf8Aux fuel rest
    else if 194 ≤ b ∧ b ≤ 223 then
      match rest with
      | c :: rest' =>
        if utf8Cont c then
          Char.ofNat ((b - 192) * 64 + (c - 128)) :: decodeUtf8Aux fuel rest'
        else '�' :: decodeUtf8Aux fuel (c :: rest')
      | [] => ['�']
    else if 224 ≤ b ∧ b ≤ 239 then
      match rest with
      | c :: rest' =>
        if utf8C1lo b ≤ c ∧ c ≤ utf8C1hi b then
          match rest' with
          | d :: rest'' =>
            if utf8Cont d then
              Char.ofNat ((b - 224) * 4096 + (c - 128) * 64 + (d - 128)) ::
                decodeUtf8Aux fuel rest''
            else '�' :: decodeUtf8Aux fuel (d :: rest'')
          | [] => ['�']
        else '�' :: decodeUtf8Aux fuel (c :: rest')
      | [] => ['�']
    else if 240 ≤ b ∧ b ≤ 244 then
      match rest with
      | c :: rest' =>
        if utf8C1lo b ≤ c ∧ c ≤ utf8C1hi b then
          match rest' with
          | d :: rest'' =>
            if utf8Cont d then
              match rest'' with
              | e :: rest''' =>
                if utf8Cont e then
                  Char.ofNat ((b - 240) * 262144 + (c - 128) * 4096 +
                      (d - 128) * 64 + (e - 128)) :: decodeUtf8Aux fuel rest'''
                else '�' :: decodeUtf8Aux fuel (e :: rest''')
              | [] => ['�']
            else '�' :: decodeUtf8Aux fuel (d :: rest'')
          | [] => ['�']
        else '�' :: decodeUtf8Aux fuel (c :: rest')
      | [] => ['�']
    else '�' :: decodeUtf8Aux fuel rest

/-- UTF-8 decoding of a byte list. -/
def decodeUtf8 (l : List Nat) : List Char := decodeUtf8Aux l.length l

/-- `Buffer.from(s, 'base64').toString()`. -/
def decodeBase64 (s : String) : String :=
  String.mk (decodeUtf8 (b64bytes (s.data.filterMap b64symVal)))

/-! ## The auth gate and the request handler -/

/-- Verdict of the Basic-auth prologue of `requestHandler`. -/
inductive AuthResult where
  /-- 401 with a `WWW-Authenticate` challenge (`!auth`). -/
  | challenge
  /-- 401 without a challenge (scheme or credential mismatch). -/
  | reject
  /-- `auth.split(' ')[1]` is `undefined`, so `Buffer.from(undefined,
  'base64')` throws — outside the handler's try/catch. -/
  | thrown
  /-- Credentials accepted (or none configured): fall through. -/
  | ok
deriving DecidableEq

/-- The Basic-auth prologue: skipped unless both `conf.username` and
`conf.password` are truthy; missing/empty header challenges; then
`const [scheme, credentials] = auth.split(' ')`,
`const [user, pass] = Buffer.from(credentials, 'base64').toString().split(':')`,
and the strict triple comparison. -/
def authGate (conf : Conf) (req : Request) : AuthResult :=
  if truthy conf.username && truthy conf.password then
    match getHeader req.headers "authorization" with
    | none => .challenge
    | some auth =>
      if auth = "" then .challenge
      else
        let parts := jsSplit auth ' '
        let scheme := (parts.get? 0).getD ""
        match parts.get? 1 with
        | none => .thrown
        | some credentials =>
          let cparts := jsSplit (decodeBase64 credentials) ':'
          let user := (cparts.get? 0).getD ""
          let pass? := cparts.get? 1
          if scheme ≠ "Basic" ∨ user ≠ conf.username.getD "" ∨
              pass? ≠ some (conf.password.getD "") then .reject
          else .ok
  else .ok

/-- The body of `requestHandler`'s try block, given the decoded request
path (`decodeURIComponent(new URL(req.url, ...).pathname)`; `none` means
that stage threw, answered 400 by the inner catch).  The null-byte `throw`
lands in the outer catch, which writes 500 since no headers were sent yet.
Then the join/normalize containment check, the `stat`-or-proxy fork, and
the directory/index/file fork. -/
def dispatch (conf : Conf) (fs : Fs) (urlPathOpt : Option String)
    (proxyParse : Option UrlParts) (upstream : ProxyReq → Option UpstreamResp)
    (req : Request) : Response :=
  match urlPathOpt with
  | none => ⟨400, [], .literal "Bad Request"⟩
  | some urlPath =>
    if urlPath.data.contains '\x00' then ⟨500, [], .literal "Server Error"⟩
    else
      let path := normalizeStr (joinP conf.root urlPath)
      if !startsWithStr path conf.root then ⟨403, [], .literal "Forbidden"⟩
      else
        match fs.stat path with
        | none => proxyRequest conf proxyParse upstream req
        | some stats =>
          if stats.isDirectory then
            if conf.autoIndex then
              let idxPath := joinP path "index.html"
              match fs.stat idxPath with
              | some idxStats =>
                if idxStats.isFile then serveFile conf req idxPath idxStats
                else serveDirectory conf fs urlPath path
              | none => serveDirectory conf fs urlPath path
            else serveDirectory conf fs urlPath path
          else serveFile conf req path stats

/-- One invocation of `requestHandler(req, res, root)`: the auth prologue,
then the try block.  An `AuthResult.thrown` verdict escapes the handler
(`noResponse`); everything else produces exactly one response. -/
def requestHandler (conf : Conf) (fs : Fs) (urlPathOpt : Option String)
    (proxyParse : Option UrlParts) (upstream : ProxyReq → Option UpstreamResp)
    (req : Request) : HOutcome :=
  match authGate conf req with
  | .challenge =>
    .resp ⟨401, [("WWW-Authenticate", "Basic realm=\"User Visible Realm\"")],
      .literal "Unauthorized"⟩
  | .reject => .resp ⟨401, [], .literal "Unauthorized"⟩
  | .thrown => .noResponse
  | .ok => .resp (dispatch conf fs urlPathOpt proxyParse upstream req)

/-! ## Concrete fixtures used by the witnesses and counterexamples -/

def c1conf : Conf := ⟨"/srv/www", false, false, none, true, true, none, none, none⟩

def c1fs : Fs :=
  ⟨fun q => if q == "/srv/www-secret/x" then some ⟨5, 0, false, true⟩ else none,
   fun _ => ([], false)⟩

def c1req : Request := ⟨"GET", "/%2e%2e%2fwww-secret/x", [("host", "h")], []⟩

def c1breq : Request := ⟨"GET", "/%2e%2e%2fetc/passwd", [("host", "h")], []⟩

def c3conf : Conf := ⟨"/r", false, true, none, true, true, none, none, none⟩

def c3req : Request :=
  ⟨"GET", "/a.txt", [("if-none-match", etagOf 100 50), ("accept-encoding", "gzip")], []⟩

def c4conf : Conf := ⟨"/r", false, true, none, true, true, none, none, none⟩

def c4req : Request := ⟨"GET", "/a.html", [("accept-encoding", "gzip, deflate, br")], []⟩

def c4stats : Stats := ⟨2048, 99, false, true⟩

def c5conf : Conf := ⟨"/r", false, false, none, true, true, none, none, none⟩

def c5fs : Fs :=
  ⟨fun _ => none,
   fun q => if q == "/r/d" then ([⟨"<script>alert(1)</script>", false⟩], false)
     else ([], false)⟩

def c6conf : Conf := ⟨"/r", false, false, none, true, true, none, none, none⟩

def c6fs : Fs := ⟨fun _ => none, fun _ => ([], false)⟩

def c6req : Request := ⟨"GET", "/a%00b", [("host", "h")], []⟩

def c7conf : Conf := ⟨"/r", false, false, none, true, true, none, some "user", some "a"⟩

def c7fs : Fs := ⟨fun _ => none, fun _ => ([], false)⟩

def c7req : Request := ⟨"GET", "/nope", [("authorization", "Basic dXNlcjphOmI=")], []⟩

def c7bconf : Conf := ⟨"/r", false, false, none, true, true, none, some "user", some "pw"⟩

def c7breq : Request := ⟨"GET", "/nope", [("authorization", "Basic dXNlcjpwdw==")], []⟩

def c7creq : Request := ⟨"GET", "/nope", [("authorization", "")], []⟩

def c8conf : Conf :=
  ⟨"/r", false, false, none, true, true, some "http://up:3000", none, none⟩

def c8fs : Fs := ⟨fun _ => none, fun _ => ([], false)⟩

def c8req : Request := ⟨"GET", "/nope", [("host", "h"), ("x-req", "1")], ["reqbody"]⟩

def c8url : UrlParts := ⟨"http:", "up", "3000", "/nope", ""⟩

def c8resp : UpstreamResp := ⟨201, [("x-up", "yes")], ["upstream-body"]⟩

def c8up : ProxyReq → Option UpstreamResp := fun _ => some c8resp

def c9conf : Conf := ⟨"/r", false, false, none, true, true, none, some "u", some "p"⟩

def c9fs : Fs := ⟨fun _ => none, fun _ => ([], false)⟩

def c9req : Request := ⟨"GET", "/x", [("authorization", "Basic")], []⟩

def c10conf : Conf := ⟨"/r", false, false, none, true, true, none, none, none⟩

def c10fs : Fs :=
  ⟨fun _ => none,
   fun q => if q == "/r/d" then ([⟨"seen.txt", false⟩], true) else ([], false)⟩

/-! ## Base-36 round-trip, injectivity of the entity tag -/

theorem b36val_b36digit : ∀ d, d < 36 → b36val (b36digit d) = d := by decide

theorem b36digit_ne_dash : ∀ d, d < 36 → b36digit d ≠ '-' := by decide

theorem b36parse_append_digit (l : List Char) (c : Char) :
    b36parse (l ++ [c]) = b36parse l * 36 + b36val c := by
  simp [b36parse, List.foldl_append]

theorem b36parse_natToB36Aux : ∀ fuel n, n < fuel → b36parse (natToB36Aux fuel n) = n := by
  intro fuel
  induction fuel with
  | zero => intro n h; omega
  | succ fuel ih =>
    intro n h
    by_cases h36 : n < 36
    · simp [natToB36Aux, h36, b36parse, b36val_b36digit n h36]
    · have hpos : 0 < n := by omega
      have hlt : n / 36 < fuel := by
        have := Nat.div_lt_self hpos (by omega : 1 < 36)
        omega
      simp only [natToB36Aux, h36, if_false, b36parse_append_digit, ih _ hlt,
        b36val_b36digit (n % 36) (Nat.mod_lt n (by omega))]
      omega

theorem b36parse_natToB36 (n : Nat) : b36parse (natToB36 n) = n :=
  b36parse_natToB36Aux (n + 1) n (Nat.lt_succ_self n)

theorem natToB36_inj {m n : Nat} (h : natToB36 m = natToB36 n) : m = n := by
  have := congrArg b36parse h
  rwa [b36parse_natToB36, b36parse_natToB36] at this

theorem natToB36Aux_no_dash : ∀ fuel n, '-' ∉ natToB36Aux fuel n := by
  intro fuel
  induction fuel with
  | zero => intro n; simp [natToB36Aux]
  | succ fuel ih =>
    intro n
    by_cases h36 : n < 36
    · simp [natToB36Aux, h36]
      exact fun h => (b36digit_ne_dash n h36) h.symm
    · simp only [natToB36Aux, h36, if_false, List.mem_append, List.mem_singleton]
      rintro (h | h)
      · exact ih _ h
      · exact (b36digit_ne_dash (n % 36) (Nat.mod_lt n (by omega))) h.symm

theorem natToB36_no_dash (n : Nat) : '-' ∉ natToB36 n := natToB36Aux_no_dash (n + 1) n

theorem intToB36_inj {s t : Int} (h : intToB36 s = intToB36 t) : s = t := by
  unfold intToB36 at h
  by_cases hs : s < 0 <;> by_cases ht : t < 0 <;> simp [hs, ht] at h
  · have := natToB36_inj h
    omega
  · exfalso
    have hmem : '-' ∈ natToB36 t.toNat := by rw [← h]; exact List.mem_cons_self _ _
    exact natToB36_no_dash _ hmem
  · exfalso
    have hmem : '-' ∈ natToB36 s.toNat := by rw [h]; exact List.mem_cons_self _ _
    exact natToB36_no_dash _ hmem
  · have := natToB36_inj h
    omega

/-- Cancellation around the first `-` separator when neither left part
contains `-`. -/
theorem append_dash_inj :
    ∀ (a₁ : List Char) (a₂ r₁ r₂ : List Char), '-' ∉ a₁ → '-' ∉ a₂ →
      a₁ ++ '-' :: r₁ = a₂ ++ '-' :: r₂ → a₁ = a₂ ∧ r₁ = r₂ := by
  intro a₁
  induction a₁ with
  | nil =>
    intro a₂ r₁ r₂ _ h₂ h
    cases a₂ with
    | nil => simpa using h
    | cons b bs =>
      exfalso
      simp only [List.nil_append, List.cons_append, List.cons.injEq] at h
      exact h₂ (h.1 ▸ List.mem_cons_self b bs)
  | cons a as ih =>
    intro a₂ r₁ r₂ h₁ h₂ h
    cases a₂ with
    | nil =>
      exfalso
      simp only [List.nil_append, List.cons_append, List.cons.injEq] at h
      exact h₁ (h.1 ▸ List.mem_cons_self a as)
    | cons b bs =>
      simp only [List.cons_append, List.cons.injEq] at h
      obtain ⟨hab, htail⟩ := h
      have h₁' : '-' ∉ as := fun hm => h₁ (List.mem_cons_of_mem a hm)
      have h₂' : '-' ∉ bs := fun hm => h₂ (List.mem_cons_of_mem b hm)
      obtain ⟨hs, hr⟩ := ih bs r₁ r₂ h₁' h₂' htail
      exact ⟨by rw [hab, hs], hr⟩

/-- Helper: equal entity-tag strings force equal size and equal
modification time. -/
theorem etagOf_inj {s₁ s₂ : Nat} {t₁ t₂ : Int}
    (h : etagOf s₁ t₁ = etagOf s₂ t₂) : s₁ = s₂ ∧ t₁ = t₂ := by
  unfold etagOf at h
  have h := String.data_eq_of_eq h
  simp only [List.cons.injEq, true_and] at h
  obtain ⟨hsz, ht⟩ := append_dash_inj _ _ _ _ (natToB36_no_dash s₁) (natToB36_no_dash s₂) h
  refine ⟨natToB36_inj hsz, intToB36_inj ?_⟩
  exact List.append_cancel_right ht

/-! ## Claim C2: determinism and injectivity of the entity tag -/

/-- Claim C2: the entity tag is a deterministic and injective function of
the pair (size, modifiedTime): two file descriptor records yield
character-identical tag strings exactly when they agree on both size and
modification time; a difference in either field changes the tag. -/
theorem etag_deterministic_injective (r₁ r₂ : Stats) :
    etagOf r₁.size r₁.mtimeMs = etagOf r₂.size r₂.mtimeMs ↔
      r₁.size = r₂.size ∧ r₁.mtimeMs = r₂.mtimeMs := by
  constructor
  · exact etagOf_inj
  · rintro ⟨h₁, h₂⟩
    rw [h₁, h₂]

/-! ## Claim C3: the conditional 304 short-circuit -/

/-- Claim C3: a request whose `If-None-Match` header is string-equal to the
entity tag computed from the file's size and modification time receives
status 304 with no headers set, an empty body (so no `Content-Encoding`
header), and neither a compression transform nor a file stream. -/
theorem serveFile_ifNoneMatch_304 (conf : Conf) (req : Request) (fp : String)
    (stats : Stats)
    (h : getHeader req.headers "if-none-match" = some (etagOf stats.size stats.mtimeMs)) :
    serveFile conf req fp stats = ⟨304, [], .empty⟩ ∧
    getHeader (serveFile conf req fp stats).headers "Content-Encoding" = none := by
  have heq : serveFile conf req fp stats = ⟨304, [], .empty⟩ := by
    unfold serveFile
    rw [if_pos h]
  exact ⟨heq, by rw [heq]; rfl⟩

/-- Witness for C3 at a concrete request carrying the matching tag. -/
theorem serveFile_ifNoneMatch_304_witness :
    getHeader c3req.headers "if-none-match" = some (etagOf 100 50) ∧
    (serveFile c3conf c3req "/r/a.txt" ⟨100, 50, false, true⟩ = ⟨304, [], .empty⟩ ∧
     getHeader (serveFile c3conf c3req "/r/a.txt" ⟨100, 50, false, true⟩).headers
       "Content-Encoding" = none) :=
  ⟨by decide, serveFile_ifNoneMatch_304 c3conf c3req "/r/a.txt" ⟨100, 50, false, true⟩ (by decide)⟩

/-! ## Claim C4: compression negotiation and `Content-Length` -/

/-- Helper: a transform is selected exactly when the `shouldCompress`
conjunction holds and the client accepts a supported scheme. -/
theorem pickTransform_isSome_iff (conf : Conf) (ct : String) (size : Nat) (ae : String) :
    (pickTransform conf ct size ae).isSome = true ↔
      (conf.gzip = true ∧ COMPRESSIBLE.contains ct = true ∧ 1024 < size ∧
       size < MAX_COMPRESS_SIZE ∧
       (includesStr ae "gzip" = true ∨ includesStr ae "deflate" = true)) := by
  unfold pickTransform
  by_cases hc : conf.gzip = true ∧ COMPRESSIBLE.contains ct = true ∧ 1024 < size ∧
      size < MAX_COMPRESS_SIZE
  · rw [if_pos hc]
    by_cases hg : includesStr ae "gzip" = true
    · rw [if_pos hg]
      exact iff_of_true rfl ⟨hc.1, hc.2.1, hc.2.2.1, hc.2.2.2, Or.inl hg⟩
    · rw [if_neg hg]
      by_cases hd : includesStr ae "deflate" = true
      · rw [if_pos hd]
        exact iff_of_true rfl ⟨hc.1, hc.2.1, hc.2.2.1, hc.2.2.2, Or.inr hd⟩
      · rw [if_neg hd]
        refine iff_of_false (by decide) ?_
        rintro ⟨-, -, -, -, hor | hor⟩
        · exact hg hor
        · exact hd hor
  · rw [if_neg hc]
    refine iff_of_false (by decide) ?_
    rintro ⟨h₁, h₂, h₃, h₄, -⟩
    exact hc ⟨h₁, h₂, h₃, h₄⟩

/-- Helper: whenever a transform is selected and the client's
`Accept-Encoding` mentions gzip, the selected transform is gzip. -/
theorem pickTransform_gzip_preferred (conf : Conf) (ct : String) (size : Nat) (ae : String)
    (hg : includesStr ae "gzip" = true) (hs : (pickTransform conf ct size ae).isSome = true) :
    pickTransform conf ct size ae = some .gzip := by
  unfold pickTransform at hs ⊢
  by_cases hc : conf.gzip = true ∧ COMPRESSIBLE.contains ct = true ∧ 1024 < size ∧
      size < MAX_COMPRESS_SIZE
  · rw [if_pos hc, if_pos hg]
  · rw [if_neg hc] at hs
    exact absurd hs (by decide)

/-- Helper: the non-304 branch of `serveFile` responds 200, streams the
requested file through the negotiated transform, sets `Content-Length` to
the exact byte size when no transform is selected, and sets no
`Content-Length` when one is. -/
theorem serveFile_stream_headers (conf : Conf) (req : Request) (fp : String) (stats : Stats)
    (hnm : getHeader req.headers "if-none-match" ≠ some (etagOf stats.size stats.mtimeMs)) :
    (serveFile conf req fp stats).status = 200 ∧
    (serveFile conf req fp stats).body =
      .fileStream fp (pickTransform conf (contentTypeOf fp) stats.size
        ((getHeader req.headers "accept-encoding").getD "")) ∧
    (pickTransform conf (contentTypeOf fp) stats.size
        ((getHeader req.headers "accept-encoding").getD "") = none →
      getHeader (serveFile conf req fp stats).headers "Content-Length" =
        some (toString stats.size)) ∧
    ((pickTransform conf (contentTypeOf fp) stats.size
        ((getHeader req.headers "accept-encoding").getD "")).isSome = true →
      getHeader (serveFile conf req fp stats).headers "Content-Length" = none) := by
  unfold serveFile
  rw [if_neg hnm]
  cases htr : pickTransform conf (contentTypeOf fp) stats.size
      ((getHeader req.headers "accept-encoding").getD "") with
  | none =>
    refine ⟨rfl, by simp [htr], fun _ => ?_, fun h => by simp at h⟩
    by_cases hcors : conf.cors = true
    · simp only [htr, hcors, if_true]
      rfl
    · simp only [htr, hcors, if_false]
      rfl
  | some enc =>
    cases enc with
    | gzip =>
      refine ⟨rfl, by simp [htr], fun h => Option.noConfusion h, fun _ => ?_⟩
      by_cases hcors : conf.cors = true
      · simp only [htr, hcors, if_true]; rfl
      · simp only [htr, hcors, if_false]; rfl
    | deflate =>
      refine ⟨rfl, by simp [htr], fun h => Option.noConfusion h, fun _ => ?_⟩
      by_cases hcors : conf.cors = true
      · simp only [htr, hcors, if_true]; rfl
      · simp only [htr, hcors, if_false]; rfl

/-- Claim C4: on a 200 file response, a compression transform is selected
exactly when global compression is enabled, the content type is in the
allow-list, the byte size exceeds the 1024-byte minimum and is below the
5 MiB maximum, and `Accept-Encoding` mentions a supported scheme, with gzip
preferred over deflate; without a transform `Content-Length` is the exact
byte size, with one no `Content-Length` is set. -/
theorem serveFile_compression_negotiation (conf : Conf) (req : Request) (fp : String)
    (stats : Stats)
    (hnm : getHeader req.headers "if-none-match" ≠ some (etagOf stats.size stats.mtimeMs)) :
    (serveFile conf req fp stats).status = 200 ∧
    (serveFile conf req fp stats).body =
      .fileStream fp (pickTransform conf (contentTypeOf fp) stats.size
        ((getHeader req.headers "accept-encoding").getD "")) ∧
    ((pickTransform conf (contentTypeOf fp) stats.size
        ((getHeader req.headers "accept-encoding").getD "")).isSome = true ↔
      (conf.gzip = true ∧ COMPRESSIBLE.contains (contentTypeOf fp) = true ∧
       1024 < stats.size ∧ stats.size < MAX_COMPRESS_SIZE ∧
       (includesStr ((getHeader req.headers "accept-encoding").getD "") "gzip" = true ∨
        includesStr ((getHeader req.headers "accept-encoding").getD "") "deflate" = true))) ∧
    (includesStr ((getHeader req.headers "accept-encoding").getD "") "gzip" = true →
      (pickTransform conf (contentTypeOf fp) stats.size
        ((getHeader req.headers "accept-encoding").getD "")).isSome = true →
      pickTransform conf (contentTypeOf fp) stats.size
        ((getHeader req.headers "accept-encoding").getD "") = some .gzip) ∧
    (pickTransform conf (contentTypeOf fp) stats.size
        ((getHeader req.headers "accept-encoding").getD "") = none →
      getHeader (serveFile conf req fp stats).headers "Content-Length" =
        some (toString stats.size)) ∧
    ((pickTransform conf (contentTypeOf fp) stats.size
        ((getHeader req.headers "accept-encoding").getD "")).isSome = true →
      getHeader (serveFile conf req fp stats).headers "Content-Length" = none) := by
  obtain ⟨h₁, h₂, h₃, h₄⟩ := serveFile_stream_headers conf req fp stats hnm
  exact ⟨h₁, h₂, pickTransform_isSome_iff conf (contentTypeOf fp) stats.size _,
    pickTransform_gzip_preferred conf (contentTypeOf fp) stats.size _, h₃, h₄⟩

/-- Witness for C4: a 2048-byte `text/html` file with compression enabled
and `Accept-Encoding: gzip, deflate, br` selects the gzip transform and
sets no `Content-Length`. -/
theorem serveFile_compression_negotiation_witness :
    getHeader c4req.headers "if-none-match" ≠ some (etagOf c4stats.size c4stats.mtimeMs) ∧
    (serveFile c4conf c4req "/r/a.html" c4stats).status = 200 ∧
    pickTransform c4conf (contentTypeOf "/r/a.html") c4stats.size
      ((getHeader c4req.headers "accept-encoding").getD "") = some .gzip ∧
    getHeader (serveFile c4conf c4req "/r/a.html" c4stats).headers "Content-Length" = none := by
  have h := serveFile_compression_negotiation c4conf c4req "/r/a.html" c4stats (by decide)
  refine ⟨by decide, h.1, ?_, ?_⟩
  · exact h.2.2.2.1 (by decide) (by decide)
  · exact h.2.2.2.2.2 (by decide)

/-! ## Claim C1: directory-traversal containment

The handler's containment check is the plain string test
`path.startsWith(root)`.  That test also accepts normalized paths that lie
in a *sibling* directory whose name extends the root as a string
(`/srv/www-secret` next to root `/srv/www`), so the claim "the normalized
path is never outside the root, else 403" is false; what holds is the
string-prefix property below. -/

/-- Claim C1 counterexample: with root `/srv/www`, the decoded request path
`/../www-secret/x` (which contains a `..` segment) normalizes to
`/srv/www-secret/x` — a path outside the root directory — yet the handler
answers 200 and streams that very file instead of responding 403. -/
theorem traversal_sibling_escape :
    (jsSplit "/../www-secret/x" '/').contains ".." = true ∧
    withinDir (normalizeStr (joinP c1conf.root "/../www-secret/x")) c1conf.root = false ∧
    (requestHandler c1conf c1fs (some "/../www-secret/x") none (fun _ => none) c1req).statusOf
      = some 200 ∧
    (requestHandler c1conf c1fs (some "/../www-secret/x") none (fun _ => none) c1req).bodyOf
      = some (.fileStream "/srv/www-secret/x" none) := by decide

/-- Claim C1 (amended): the enforced invariant is string-prefix containment,
not directory containment — whenever the path obtained by joining the
decoded request path onto the root and normalizing does *not* have the root
as a string prefix, the response is 403 Forbidden and no file content is
streamed. -/
theorem requestHandler_prefixFail_403 (conf : Conf) (fs : Fs) (pp : Option UrlParts)
    (up : ProxyReq → Option UpstreamResp) (req : Request) (p : String)
    (hauth : authGate conf req = .ok)
    (hnull : p.data.contains '\x00' = false)
    (hpre : startsWithStr (normalizeStr (joinP conf.root p)) conf.root = false) :
    requestHandler conf fs (some p) pp up req = .resp ⟨403, [], .literal "Forbidden"⟩ := by
  unfold requestHandler
  rw [hauth]
  unfold dispatch
  simp only [hnull, hpre, Bool.false_eq_true, if_false, Bool.not_false, if_true]

/-- Witness for the amended C1 at the decoded path `/../etc/passwd`, whose
normalization `/srv/etc/passwd` fails the prefix test. -/
theorem requestHandler_prefixFail_403_witness :
    authGate c1conf c1breq = .ok ∧
    ("/../etc/passwd").data.contains '\x00' = false ∧
    startsWithStr (normalizeStr (joinP c1conf.root "/../etc/passwd")) c1conf.root = false ∧
    requestHandler c1conf c1fs (some "/../etc/passwd") none (fun _ => none) c1breq =
      .resp ⟨403, [], .literal "Forbidden"⟩ :=
  ⟨by decide, by decide, by decide,
   requestHandler_prefixFail_403 c1conf c1fs none (fun _ => none) c1breq "/../etc/passwd"
     (by decide) (by decide) (by decide)⟩

/-! ## Claim C5: directory-listing entry names are not escaped

`serveDirectory` interpolates `dirent.name` into the `<li><a ...>` markup
with no escaping whatsoever (the code's own comment concedes escaping would
be needed against XSS), so a filename carrying HTML metacharacters is
emitted verbatim and injects markup. -/

/-- Claim C5: a directory entry named `<script>alert(1)</script>` appears
verbatim — metacharacters intact, no `&lt;` anywhere in the listing — in
both the link target and the link text of the generated HTML. -/
theorem serveDirectory_writes_name_unescaped :
    listingChunksOf (serveDirectory c5conf c5fs "/d" "/r/d") =
      ["<!DOCTYPE html><meta charset=\"utf-8\"><h1>📂 /d</h1><ul>",
       "<li><a href=\"..\">⬆️ Parent</a></li>",
       "<li><a href=\"/d/<script>alert(1)</script>\"><script>alert(1)</script></a></li>",
       "</ul>"] ∧
    (listingChunksOf (serveDirectory c5conf c5fs "/d" "/r/d")).all
      (fun c => !includesStr c "&lt;") = true := by decide

/-! ## Claim C6: null bytes in the decoded path

The null-byte check `throw`s `'Malicious Path'`, which lands in the
handler's generic catch — the response is 500, a *server* error, not the
4xx client error the claim asserts. -/

/-- Claim C6 counterexample: the decoded path `/a\x00b` contains a null
byte, and the handler responds 500 — a 5xx server error, not a 4xx client
error. -/
theorem nullByte_yields_500_not_4xx :
    ("/a\x00b").data.contains '\x00' = true ∧
    (requestHandler c6conf c6fs (some "/a\x00b") none (fun _ => none) c6req).statusOf
      = some 500 := by decide

/-- Claim C6 (amended): every request whose decoded path contains a null
byte is answered with status 500 (`Server Error`): the sanitizing check
throws and the handler's generic catch converts the exception into a server
error, never a 4xx. -/
theorem requestHandler_nullByte_500 (conf : Conf) (fs : Fs) (pp : Option UrlParts)
    (up : ProxyReq → Option UpstreamResp) (req : Request) (p : String)
    (hauth : authGate conf req = .ok)
    (hnull : p.data.contains '\x00' = true) :
    requestHandler conf fs (some p) pp up req = .resp ⟨500, [], .literal "Server Error"⟩ := by
  unfold requestHandler
  rw [hauth]
  unfold dispatch
  simp only [hnull, if_true]

/-- Witness for the amended C6 at the decoded path `/b\x00`. -/
theorem requestHandler_nullByte_500_witness :
    authGate c6conf c6req = .ok ∧
    ("/b\x00").data.contains '\x00' = true ∧
    requestHandler c6conf c6fs (some "/b\x00") none (fun _ => none) c6req =
      .resp ⟨500, [], .literal "Server Error"⟩ :=
  ⟨by decide, by decide,
   requestHandler_nullByte_500 c6conf c6fs none (fun _ => none) c6req "/b\x00"
     (by decide) (by decide)⟩

/-! ## Claim C7: the basic-auth gate

The code destructures `decoded.split(':')` into its *first two* components
only, so a client presenting password `a:b` against configured password `a`
is accepted (`['user','a','b']` destructures to user `user`, pass `a`) —
the claim's "any mismatched password receives 401" is therefore false. -/

/-- Claim C7 counterexample: with configured credentials `user` / `a`, the
header `Basic dXNlcjphOmI=` presents the credentials `user:a:b` — password
`a:b`, not string-equal to the configured `a` — yet the request passes the
gate and reaches path resolution (status 404 here), instead of receiving
401. -/
theorem auth_password_truncation_bypass :
    decodeBase64 "dXNlcjphOmI=" = "user:a:b" ∧
    c7conf.password = some "a" ∧
    (requestHandler c7conf c7fs (some "/nope") none (fun _ => none) c7req).statusOf
      = some 404 := by decide

/-- Claim C7 (amended): with credentials configured, a missing (or empty)
`Authorization` header yields 401 with a `WWW-Authenticate` challenge; a
decodable header whose scheme is not `Basic`, or whose decoded credentials'
*first two* colon-separated components differ from the configured username
and password, yields 401 without a challenge; and a header whose scheme is
`Basic` and whose first two components equal the configured pair passes
through unmodified to path resolution. -/
theorem requestHandler_auth_gate (conf : Conf) (fs : Fs) (upo : Option String)
    (pp : Option UrlParts) (up : ProxyReq → Option UpstreamResp) (req : Request)
    (u p : String)
    (hu : conf.username = some u) (hp : conf.password = some p)
    (hune : u ≠ "") (hpne : p ≠ "") :
    (getHeader req.headers "authorization" = none ∨
        getHeader req.headers "authorization" = some "" →
      requestHandler conf fs upo pp up req =
        .resp ⟨401, [("WWW-Authenticate", "Basic realm=\"User Visible Realm\"")],
          .literal "Unauthorized"⟩) ∧
    (∀ a cred, getHeader req.headers "authorization" = some a → a ≠ "" →
      (jsSplit a ' ').get? 1 = some cred →
      (((jsSplit a ' ').get? 0).getD "" ≠ "Basic" ∨
       ((jsSplit (decodeBase64 cred) ':').get? 0).getD "" ≠ u ∨
       (jsSplit (decodeBase64 cred) ':').get? 1 ≠ some p) →
      requestHandler conf fs upo pp up req = .resp ⟨401, [], .literal "Unauthorized"⟩) ∧
    (∀ a cred, getHeader req.headers "authorization" = some a → a ≠ "" →
      (jsSplit a ' ').get? 1 = some cred →
      ((jsSplit a ' ').get? 0).getD "" = "Basic" →
      ((jsSplit (decodeBase64 cred) ':').get? 0).getD "" = u →
      (jsSplit (decodeBase64 cred) ':').get? 1 = some p →
      requestHandler conf fs upo pp up req = .resp (dispatch conf fs upo pp up req)) := by
  have htr : (truthy conf.username && truthy conf.password) = true := by
    rw [hu, hp]
    simp [truthy, hune, hpne]
  refine ⟨?_, ?_, ?_⟩
  · intro ha
    have hgate : authGate conf req = .challenge := by
      unfold authGate
      rcases ha with ha | ha
      · rw [htr, ha]
        rfl
      · rw [htr, ha]
        rfl
    unfold requestHandler
    rw [hgate]
  · intro a cred ha hane hcred hmis
    have hgate : authGate conf req = .reject := by
      unfold authGate
      rw [htr, ha]
      simp only [if_true]
      rw [if_neg hane, hcred]
      simp only [hu, hp, Option.getD_some]
      rw [if_pos hmis]
    unfold requestHandler
    rw [hgate]
  · intro a cred ha hane hcred hsch huser hpass
    have hgate : authGate conf req = .ok := by
      unfold authGate
      rw [htr, ha]
      simp only [if_true]
      rw [if_neg hane, hcred]
      simp only [hu, hp, Option.getD_some]
      rw [if_neg]
      push_neg
      exact ⟨hsch, huser, hpass⟩
    unfold requestHandler
    rw [hgate]

/-- Witness for the amended C7: the exact configured pair `user` / `pw`
(header `Basic dXNlcjpwdw==`) passes through to path resolution, and a
present-but-empty `Authorization` header receives the 401 challenge. -/
theorem requestHandler_auth_gate_witness :
    c7bconf.username = some "user" ∧ c7bconf.password = some "pw" ∧
    decodeBase64 "dXNlcjpwdw==" = "user:pw" ∧
    requestHandler c7bconf c7fs (some "/nope") none (fun _ => none) c7breq =
      .resp (dispatch c7bconf c7fs (some "/nope") none (fun _ => none) c7breq) ∧
    getHeader c7creq.headers "authorization" = some "" ∧
    requestHandler c7bconf c7fs (some "/nope") none (fun _ => none) c7creq =
      .resp ⟨401, [("WWW-Authenticate", "Basic realm=\"User Visible Realm\"")],
        .literal "Unauthorized"⟩ :=
  ⟨rfl, rfl, by decide,
   (requestHandler_auth_gate c7bconf c7fs (some "/nope") none (fun _ => none) c7breq
      "user" "pw" rfl rfl (by decide) (by decide)).2.2
      "Basic dXNlcjpwdw==" "dXNlcjpwdw==" (by decide) (by decide) (by decide)
      (by decide) (by decide) (by decide),
   by decide,
   (requestHandler_auth_gate c7bconf c7fs (some "/nope") none (fun _ => none) c7creq
      "user" "pw" rfl rfl (by decide) (by decide)).1 (Or.inr (by decide))⟩

/-! ## Claim C8: not-found routing — 404 or verbatim proxy relay -/

/-- Claim C8: when the resolved path passes containment but `stat` fails
(neither file nor directory), the handler responds 404 if no proxy upstream
is configured; with an upstream configured and the target URL parsed, the
original request's method, headers and body are forwarded to the upstream,
and the upstream's status, headers and body are relayed back unchanged. -/
theorem requestHandler_notFound_proxy (conf : Conf) (fs : Fs) (pp : Option UrlParts)
    (up : ProxyReq → Option UpstreamResp) (req : Request) (p : String)
    (hauth : authGate conf req = .ok)
    (hnull : p.data.contains '\x00' = false)
    (hpre : startsWithStr (normalizeStr (joinP conf.root p)) conf.root = true)
    (hstat : fs.stat (normalizeStr (joinP conf.root p)) = none) :
    (truthy conf.proxy = false →
      requestHandler conf fs (some p) pp up req =
        .resp ⟨404, [("Content-Type", "text/plain")], .literal "404 Not Found"⟩) ∧
    (∀ u pres, truthy conf.proxy = true → pp = some u →
      up ⟨u.hostname, u.port, u.pathname ++ u.search, req.method, req.headers, req.body⟩
        = some pres →
      requestHandler conf fs (some p) pp up req =
        .resp ⟨pres.status, pres.headers, .proxied pres.body⟩) := by
  unfold requestHandler
  rw [hauth]
  unfold dispatch
  simp only [hnull, Bool.false_eq_true, if_false, hpre, Bool.not_true, hstat]
  unfold proxyRequest
  constructor
  · intro hnp
    simp only [hnp, Bool.not_false, if_true]
  · intro u pres hpx hpp hup
    simp only [hpx, Bool.not_true, Bool.false_eq_true, if_false, hpp, hup]

/-- Witness for C8: a missing path with a configured upstream is relayed —
the upstream's 201 status, headers and body come back unchanged. -/
theorem requestHandler_notFound_proxy_witness :
    authGate c8conf c8req = .ok ∧
    truthy c8conf.proxy = true ∧
    requestHandler c8conf c8fs (some "/nope") (some c8url) c8up c8req =
      .resp ⟨c8resp.status, c8resp.headers, .proxied c8resp.body⟩ :=
  ⟨by decide, by decide,
   (requestHandler_notFound_proxy c8conf c8fs (some c8url) c8up c8req "/nope"
      (by decide) (by decide) (by decide) (by decide)).2 c8url c8resp (by decide) rfl rfl⟩

/-! ## Claim C9: `Authorization` header with no credentials token -/

/-- Claim C9: with credentials configured, a nonempty `Authorization`
header containing no second space-separated token (for example exactly
`Basic`) makes `Buffer.from(undefined, 'base64')` throw *outside* the
handler's try/catch, so the handler writes no response at all — neither 401
nor 500. -/
theorem requestHandler_authNoToken_noResponse (conf : Conf) (fs : Fs)
    (upo : Option String) (pp : Option UrlParts) (up : ProxyReq → Option UpstreamResp)
    (req : Request) (a : String)
    (hu : truthy conf.username = true) (hp : truthy conf.password = true)
    (ha : getHeader req.headers "authorization" = some a) (hne : a ≠ "")
    (htok : (jsSplit a ' ').get? 1 = none) :
    requestHandler conf fs upo pp up req = .noResponse := by
  unfold requestHandler authGate
  rw [hu, hp, ha]
  simp only [Bool.and_self, if_true, htok]
  rw [if_neg hne]

/-- Witness for C9 at the header value `Basic`. -/
theorem requestHandler_authNoToken_noResponse_witness :
    truthy c9conf.username = true ∧
    getHeader c9req.headers "authorization" = some "Basic" ∧
    (jsSplit "Basic" ' ').get? 1 = none ∧
    requestHandler c9conf c9fs (some "/x") none (fun _ => none) c9req = .noResponse :=
  ⟨by decide, by decide, by decide,
   requestHandler_authNoToken_noResponse c9conf c9fs (some "/x") none (fun _ => none) c9req
     "Basic" (by decide) (by decide) (by decide) (by decide) (by decide)⟩

/-! ## Claim C10: directory enumeration failure after headers are sent -/

/-- Claim C10: when directory enumeration fails after the 200 status and
the listing prefix have been written, the status stays 200, and the body is
terminated by the single closing chunk `</ul><p>Access Error</p>` — the
close tag followed by the error marker — with the stream ended normally
(the model's `Response` is a completed, non-aborted response). -/
theorem serveDirectory_enumFail_200 (conf : Conf) (fs : Fs) (url dirPath : String)
    (entries : List Dirent)
    (hshow : conf.showDir = true)
    (hread : fs.readDir dirPath = (entries, true)) :
    (serveDirectory conf fs url dirPath).status = 200 ∧
    (serveDirectory conf fs url dirPath).headers =
      [("Content-Type", "text/html; charset=utf-8")] ∧
    (listingChunksOf (serveDirectory conf fs url dirPath)).getLast? =
      some "</ul><p>Access Error</p>" := by
  unfold serveDirectory
  rw [hshow]
  simp only [Bool.not_true, Bool.false_eq_true, if_false, hread]
  refine ⟨trivial, trivial, ?_⟩
  simp only [listingChunksOf]
  rw [show ∀ (x : String) (l1 l2 : List String) e,
      x :: (l1 ++ l2 ++ [e]) = (x :: (l1 ++ l2)) ++ [e] from fun _ _ _ _ => by simp]
  exact List.getLast?_concat _

/-- Witness for C10: a directory whose enumeration yields one entry and
then fails keeps status 200 and closes with the error marker. -/
theorem serveDirectory_enumFail_200_witness :
    c10conf.showDir = true ∧
    c10fs.readDir "/r/d" = ([⟨"seen.txt", false⟩], true) ∧
    (serveDirectory c10conf c10fs "/d" "/r/d").status = 200 ∧
    (listingChunksOf (serveDirectory c10conf c10fs "/d" "/r/d")).getLast? =
      some "</ul><p>Access Error</p>" := by
  have h := serveDirectory_enumFail_200 c10conf c10fs "/d" "/r/d"
    [⟨"seen.txt", false⟩] rfl (by decide)
  exact ⟨rfl, by decide, h.1, h.2.2⟩

end Serve
